import Mathlib

/-!
Shallow embedding of the core of `repo_view_extract.py` (a JSON code-repository
viewer): the tiered metrics cache (`calculate_t1/t2/t3_metrics`,
`get_cached_metrics`), the code-type classifier (`detect_code_type`), the
quality scorers (`calculate_basic_quality`, `calculate_full_quality`), the
background indexer (`_background_scan_worker`), the filter-preview engine
(`do_preview_calculation` / `finish_preview`) and the column sort
(`sort_tree`).

Modelling conventions:
* Python strings are Lean `String`s; `x in s` substring tests are `strIn`;
  `str.lower()` is `pyLower` (ASCII case folding, as all pattern keywords and
  claim-relevant inputs are ASCII).
* Python dict cache `record_cache : Dict[int, dict]` is `Cache := Nat → Option Entry`;
  in-place mutation becomes functional update, returning the new cache.
* Machine arithmetic: record sizes are `Int` (`int(record.get('size', 0))`
  with the `except` fallback modelled by `Option Int` + `getD 0`).
* `int((score / MAX_QUALITY_SCORE) * 100)` is modelled by Nat floor division
  `score * 100 / MAX_QUALITY_SCORE`; for every reachable score (0..62) the
  float computation and the exact floor agree, since `k/62*100` is never
  within double rounding error of a different integer.
* `size_str` is rendered with float formatting (`f"{...:.1f} KB"`) in the
  source; it is display-only and is modelled symbolically by `SizeStr`, which
  records the chosen branch and the exact size, avoiding float semantics.
-/

namespace RepoView

/-! ### String utilities (Python `in`, `lower`, `basename`, splitting) -/

/-- Python whitespace for `str.strip` / regex `\s`: space, `\t`, `\n`, `\r`,
`\x0b`, `\x0c`. -/
def isPySpace (c : Char) : Bool :=
  c == ' ' || c == '\t' || c == '\n' || c == '\r' ||
  c == Char.ofNat 11 || c == Char.ofNat 12

/-- Regex `\w` (ASCII): letters, digits, underscore. -/
def isWordChar (c : Char) : Bool :=
  c.isAlpha || c.isDigit || c == '_'

/-- Does `n` occur at the head of `h`? (used for Python substring tests) -/
def leadMatch : List Char → List Char → Bool
  | [], _ => true
  | _ :: _, [] => false
  | a :: as, b :: bs => a == b && leadMatch as bs

/-- Does `n` occur anywhere in `h`? -/
def subIn (n : List Char) : List Char → Bool
  | [] => leadMatch n []
  | c :: rest => leadMatch n (c :: rest) || subIn n rest

/-- Python `needle in s` (substring containment). -/
def strIn (needle s : String) : Bool := subIn needle.data s.data

/-- Python `s.lower()` (ASCII case folding). -/
def pyLower (s : String) : String := ⟨s.data.map Char.toLower⟩

/-- `os.path.basename` (POSIX): the part after the last `/`. -/
def basenameAux : List Char → List Char → List Char
  | cur, [] => cur
  | cur, c :: rest => if c = '/' then basenameAux [] rest else basenameAux (cur ++ [c]) rest

def basename (p : String) : String := ⟨basenameAux [] p.data⟩

/-- Python `content.count('\n')`. -/
def countNl (s : String) : Nat := s.data.count '\n'

/-- Python `content.split('\n')` (always a non-empty list of lines). -/
def splitNl : List Char → List (List Char)
  | [] => [[]]
  | c :: rest =>
    if c = '\n' then [] :: splitNl rest
    else match splitNl rest with
      | [] => [[c]]
      | h :: t => (c :: h) :: t

/-! ### Data model -/

/-- A loaded record: only the fields the core reads (`path`, `size`,
`content`). `size : Option Int` models `record.get('size', 0)` wrapped in
`try: int(...) except: 0` — `none` stands for a missing or unparsable size. -/
structure Record where
  path : String
  size : Option Int
  content : String
deriving DecidableEq

/-- Missing/invalid sizes are treated as 0 (`int(record.get('size', 0))`,
`except (ValueError, TypeError): size = 0`). -/
def recordSize (r : Record) : Int := r.size.getD 0

def defaultRecord : Record := ⟨"", none, ""⟩

/-- `self.records[record_idx]` — claims only exercise in-bounds indices. -/
def recordAt (records : List Record) (idx : Nat) : Record :=
  records.getD idx defaultRecord

/-- `CODE_TYPE_PATTERNS`: label ↦ (import keywords, path keywords). -/
def CODE_TYPE_PATTERNS : List (String × List String × List String) :=
  [ ("GUI",
     (["tkinter", "PyQt", "PySide", "wx", "kivy", "pygame", "gtk", "ttk", "customtkinter"],
      ["gui", "ui", "interface", "window", "dialog", "widget"])),
    ("AI/ML",
     (["tensorflow", "keras", "torch", "pytorch", "sklearn", "scikit-learn", "xgboost",
       "lightgbm", "catboost", "transformers", "huggingface", "openai", "langchain"],
      ["ai", "ml", "machine_learning", "deep_learning", "neural", "model", "training"])),
    ("Data Processing",
     (["pandas", "numpy", "scipy", "dask", "polars", "vaex", "csv", "json", "xml",
       "openpyxl", "xlrd", "pyarrow", "parquet"],
      ["data", "etl", "pipeline", "processing", "transform", "clean"])),
    ("Image Processing",
     (["PIL", "pillow", "cv2", "opencv", "skimage", "imageio", "mahotas",
       "SimpleITK", "scikit-image"],
      ["image", "img", "vision", "photo", "picture", "pixel"])),
    ("Web/API",
     (["flask", "django", "fastapi", "requests", "aiohttp", "httpx", "bottle",
       "tornado", "starlette", "uvicorn", "gunicorn"],
      ["web", "api", "server", "http", "rest", "endpoint", "route"])),
    ("Database",
     (["sqlite3", "sqlalchemy", "pymongo", "redis", "psycopg2", "mysql",
       "pymysql", "mongoengine", "peewee", "tortoise"],
      ["database", "db", "sql", "mongo", "storage", "repository"])),
    ("Algorithm",
     (["collections", "heapq", "bisect", "itertools", "functools", "operator"],
      ["algorithm", "algo", "sort", "search", "graph", "tree", "dp", "dynamic"])),
    ("Testing",
     (["pytest", "unittest", "nose", "mock", "hypothesis", "coverage", "tox"],
      ["test", "spec", "unittest", "pytest", "mock"])),
    ("Networking",
     (["socket", "asyncio", "twisted", "paramiko", "fabric", "netmiko", "scapy"],
      ["network", "socket", "tcp", "udp", "protocol", "packet"])),
    ("Automation/Scripting",
     (["subprocess", "shutil", "glob", "pathlib", "argparse", "click", "typer",
       "schedule", "watchdog", "pyautogui", "selenium"],
      ["script", "automation", "bot", "task", "cron", "job"])) ]

def codeTypeKeys : List String := CODE_TYPE_PATTERNS.map (·.1)

/-- `SIZE_OPTIONS` (label, bytes) exactly as in the source — note the
`('50 KB', 10 * 1024)` entry. -/
def SIZE_OPTIONS : List (String × Int) :=
  [ ("1 KB", 1024), ("5 KB", 5 * 1024), ("10 KB", 10 * 1024), ("20 KB", 20 * 1024),
    ("30 KB", 30 * 1024), ("50 KB", 10 * 1024), ("75 KB", 75 * 1024),
    ("100 KB", 100 * 1024), ("200 KB", 200 * 1024), ("300 KB", 300 * 1024),
    ("500 KB", 500 * 1024), ("1 MB", 1024 * 1024), ("2 MB", 2 * 1024 * 1024),
    ("5 MB", 5 * 1024 * 1024), ("10 MB", 10 * 1024 * 1024), ("100 MB", 100 * 1024 * 1024) ]

/-- `QUALITY_WEIGHTS` (insertion order preserved). -/
def QUALITY_WEIGHTS : List (String × Nat) :=
  [ ("has_docstring", 10), ("has_type_hints", 8), ("good_comment_ratio", 7),
    ("reasonable_line_length", 5), ("no_wildcard_imports", 5),
    ("has_functions_or_classes", 5), ("good_naming", 5), ("no_bare_except", 4),
    ("no_eval_exec", 4), ("reasonable_complexity", 4),
    ("has_exception_handling", 3), ("no_magic_numbers", 2) ]

/-- `QUALITY_WEIGHTS.get(k, 0)`. -/
def qualityWeight (k : String) : Nat :=
  ((QUALITY_WEIGHTS.find? (·.1 == k)).map (·.2)).getD 0

/-- `MAX_QUALITY_SCORE = sum(QUALITY_WEIGHTS.values())` (= 62). -/
def MAX_QUALITY_SCORE : Nat := (QUALITY_WEIGHTS.map (·.2)).sum

/-! ### Code type classifier (`detect_code_type`) -/

/-- `detect_code_type`: a label is detected iff some import keyword occurs in
the lowercased content, or (otherwise) some path keyword occurs in the
lowercased path.  The result is the set of matching labels, represented as the
sublist of `CODE_TYPE_PATTERNS` keys in table order. -/
def detect_code_type (r : Record) : List String :=
  let content := pyLower r.content
  let path := pyLower r.path
  (CODE_TYPE_PATTERNS.filter (fun pat =>
      pat.2.1.any (fun imp => strIn (pyLower imp) content) ||
      pat.2.2.any (fun kw => strIn (pyLower kw) path))).map (·.1)

/-! ### Quality scorers -/

/-- `calculate_basic_quality`: the fast 5-criterion Tier-2 score. -/
def calculate_basic_quality (content : String) : Nat :=
  if content = "" then 0
  else
    (if strIn "\"\"\"" content || strIn "'''" content then qualityWeight "has_docstring" else 0) +
    (if strIn ": " content && strIn "->" content then qualityWeight "has_type_hints" else 0) +
    (if !strIn "from " content || !strIn "import *" content then qualityWeight "no_wildcard_imports" else 0) +
    (if strIn "def " content || strIn "class " content then qualityWeight "has_functions_or_classes" else 0) +
    (if !strIn "eval(" content && !strIn "exec(" content then qualityWeight "no_eval_exec" else 0)

/-! #### Regex helpers for `calculate_full_quality`

`re.search(r'def \w+\([^)]*:\s*\w+', content)`: after `def `, a maximal
non-empty `\w` run, then `(`, then (with backtracking) some `:` preceded only
by non-`)` characters, then optional whitespace and a `\w` character. -/

/-- After the `:` of the regex: `\s*\w` (whitespace and word chars are
disjoint, so only the maximal whitespace skip can succeed). -/
def spaceThenWord (l : List Char) : Bool :=
  match l.dropWhile isPySpace with
  | c :: _ => isWordChar c
  | [] => false

/-- Scan for `[^)]*:` followed by `\s*\w+` (existential over the `:` The
`:` itself may also be consumed by `[^)]*`, hence the second disjunct). -/
def colonScan : List Char → Bool
  | [] => false
  | c :: rest => (c == ':' && spaceThenWord rest) || (c != ')' && colonScan rest)

/-- Does the regex `def \w+\([^)]*:\s*\w+` match at the head of `l`? -/
def defHintAt : List Char → Bool
  | 'd' :: 'e' :: 'f' :: ' ' :: rest =>
      let run := rest.takeWhile isWordChar
      !run.isEmpty &&
        (match rest.drop run.length with
         | '(' :: rest2 => colonScan rest2
         | _ => false)
  | _ => false

/-- `re.search`: does `p` match at some suffix? -/
def anySuffix (p : List Char → Bool) : List Char → Bool
  | [] => p []
  | c :: rest => p (c :: rest) || anySuffix p rest

/-- `re.findall(r'\b([a-z_][a-z0-9_]*)\b', content, re.I)`: the maximal
`\w`-runs of the text that start with a letter or underscore (a run starting
with a digit has no `\b` inside it, so it yields no identifier). -/
def splitRuns : List Char → List (List Char)
  | [] => []
  | c :: rest =>
    let r := splitRuns rest
    if isWordChar c then
      match rest with
      | d :: _ =>
        if isWordChar d then
          match r with
          | h :: t => (c :: h) :: t
          | [] => [[c]]
        else [c] :: r
      | [] => [[c]]
    else r

def pyIdentifiers (content : String) : List (List Char) :=
  (splitRuns content.data).filter (fun run =>
    match run.head? with
    | some c => c.isAlpha || c == '_'
    | none => false)

/-- One attempt of `re.findall(r'[^0-9_]([2-9]\d{2,}|[1-9]\d{3,})[^0-9_]', ...)`
at the current position: a non-digit non-underscore character, a maximal
digit run satisfying one of the alternatives (backtracking into the run
cannot succeed because the following character would be a digit), and a
trailing non-digit non-underscore character.  Returns the number of
characters the match consumes *after* the leading character. -/
def magicAt (l : List Char) : Option Nat :=
  match l with
  | [] => none
  | c :: rest =>
    if c.isDigit || c == '_' then none
    else
      let d := rest.takeWhile Char.isDigit
      if d = [] then none
      else
        let headOk :=
          match d.head? with
          | some h => (('2' ≤ h && h ≤ '9') && 3 ≤ d.length) ||
                      (('1' ≤ h && h ≤ '9') && 4 ≤ d.length)
          | none => false
        match rest.drop d.length with
        | c2 :: _ =>
          if headOk && !(c2.isDigit || c2 == '_') then some (d.length + 1) else none
        | [] => none

/-- Non-overlapping scan of `re.findall` (the consumed trailing character is
not reconsidered for the next match). -/
def magicScan (l : List Char) : Nat :=
  match h : magicAt l with
  | some k =>
    match l with
    | [] => 0
    | _ :: rest => 1 + magicScan (rest.drop k)
  | none =>
    match l with
    | [] => 0
    | _ :: rest => magicScan rest
termination_by l.length
decreasing_by
  · simp only [List.length_drop, List.length_cons]
    omega
  · simp only [List.length_cons]
    omega

/-- `l.strip()` is truthy (⇔ the line has a non-whitespace character). -/
def stripNonEmpty (l : List Char) : Bool := !(l.dropWhile isPySpace).isEmpty

/-- `l.strip().startswith('#')`. -/
def isCommentLine (l : List Char) : Bool :=
  (l.dropWhile isPySpace).head? == some '#'

/-- `calculate_full_quality`: the 12-criterion Tier-3 checklist, in the
source's insertion order.  Float ratio comparisons are modelled exactly as
rationals (`0.05 <= c/k <= 0.4` ⇔ `k ≤ 20c ∧ 5c ≤ 2k`, and
`long < 0.1·L` ⇔ `10·long < L`; `good/total > 0.8` ⇔ `5·good > 4·total`).
`reasonable_complexity` uses a 0-default max over indentation depths; the
Python generator would raise on whitespace-only non-empty content, a case no
claim exercises. -/
def calculate_full_quality (content : String) : List (String × Bool) :=
  if content = "" then []
  else
    let lines := splitNl content.data
    let commentLines := lines.countP isCommentLine
    let codeLines := lines.countP (fun l => stripNonEmpty l && !isCommentLine l)
    let longLines := lines.countP (fun l => 120 < l.length)
    let identifiers := pyIdentifiers content
    let goodNames := identifiers.countP (fun i =>
      1 < i.length || [['i'], ['j'], ['k'], ['x'], ['y'], ['n']].contains i)
    let nested := ((lines.filter stripNonEmpty).map
      (fun l => (l.takeWhile isPySpace).length / 4)).foldr Nat.max 0
    [ ("has_docstring", strIn "\"\"\"" content || strIn "'''" content),
      ("has_type_hints", anySuffix defHintAt content.data || strIn "->" content),
      ("good_comment_ratio",
        if 0 < codeLines then
          decide (codeLines ≤ 20 * commentLines) && decide (5 * commentLines ≤ 2 * codeLines)
        else false),
      ("reasonable_line_length", decide (10 * longLines < lines.length)),
      ("no_wildcard_imports", !strIn "import *" content),
      ("has_functions_or_classes", strIn "def " content || strIn "class " content),
      ("good_naming",
        if identifiers.isEmpty then true
        else decide (4 * identifiers.length < 5 * goodNames)),
      ("no_bare_except", !strIn "except:" content),
      ("no_eval_exec", !strIn "eval(" content && !strIn "exec(" content),
      ("has_exception_handling", strIn "try:" content && strIn "except" content),
      ("reasonable_complexity", decide (nested ≤ 5)),
      ("no_magic_numbers", decide (magicScan content.data < 5)) ]

/-! ### Tiered metrics cache -/

/-- `size_str` rendered symbolically (the source formats with `:.1f`, which is
display-only float formatting): which branch was taken, with the exact size. -/
inductive SizeStr where
  | mb (size : Int)
  | kb (size : Int)
  | b (size : Int)
deriving DecidableEq

/-- The `loc` field holds the string `'...'` at Tier 1 and an int thereafter. -/
inductive LocVal where
  | strDots
  | num (n : Nat)
deriving DecidableEq

/-- A metrics-cache entry (one Python dict in `record_cache`).  Fields absent
from the dict until a later tier are `Option`s defaulting to `none`. -/
structure Entry where
  tier : Nat
  name : String
  full_name : String
  size : Int
  size_str : SizeStr
  loc : LocVal
  type_str : String
  quality_str : String
  detected_types : Option (List String) := none
  quality_score : Option Nat := none
  quality_details : Option (List (String × Bool)) := none
deriving DecidableEq

/-- `record_cache : Dict[int, Dict[str, Any]]`. -/
def Cache : Type := Nat → Option Entry

def cacheSet (c : Cache) (i : Nat) (e : Entry) : Cache :=
  fun j => if j = i then some e else c j

/-- `record_cache.get(i, {}).get('tier', 0)`. -/
def tierAt (c : Cache) (i : Nat) : Nat := ((c i).map Entry.tier).getD 0

/-- Star-rating string from a quality percentage (`★★★ {pct}%` / `★★☆` /
`★☆☆` at the 70 / 40 thresholds). -/
def starStr (pct : Nat) : String :=
  if 70 ≤ pct then "★★★ " ++ Nat.repr pct ++ "%"
  else if 40 ≤ pct then "★★☆ " ++ Nat.repr pct ++ "%"
  else "★☆☆ " ++ Nat.repr pct ++ "%"

/-- `', '.join(sorted(detected_types)[:2])` plus the `+n` overflow suffix. -/
def typeStrOf (detected : List String) : String :=
  let j := String.intercalate ", " ((List.insertionSort (· ≤ ·) detected).take 2)
  if 2 < detected.length then j ++ " +" ++ Nat.repr (detected.length - 2) else j

/-- `calculate_t1_metrics`: name and size formatting; unconditionally stores a
Tier-1 entry at `idx` and returns it. -/
def calculate_t1_metrics (records : List Record) (idx : Nat) (c : Cache) :
    Entry × Cache :=
  let record := recordAt records idx
  let path := record.path
  let name := if path = "" then "record_" ++ Nat.repr idx else basename path
  let size := recordSize record
  let size_str :=
    if 1024 * 1024 ≤ size then SizeStr.mb size
    else if 1024 ≤ size then SizeStr.kb size
    else SizeStr.b size
  let e : Entry :=
    { tier := 1
      name := if 30 < name.length then ⟨name.data.take 30⟩ ++ "..." else name
      full_name := name
      size := size
      size_str := size_str
      loc := LocVal.strDots
      type_str := "..."
      quality_str := "..." }
  (e, cacheSet c idx e)

/-- `get_cached_metrics`: return the cached entry, or compute Tier 1. -/
def get_cached_metrics (records : List Record) (idx : Nat) (c : Cache) :
    Entry × Cache :=
  match c idx with
  | some e => (e, c)
  | none => calculate_t1_metrics records idx c

/-- `calculate_t2_metrics`: ensure presence, then promote to Tier 2 (LOC,
detected types, basic quality) unless the tier is already ≥ 2. -/
def calculate_t2_metrics (records : List Record) (idx : Nat) (c : Cache) :
    Entry × Cache :=
  let p := match c idx with
    | some e => (e, c)
    | none => calculate_t1_metrics records idx c
  if 2 ≤ p.1.tier then p
  else
    let record := recordAt records idx
    let content := record.content
    let loc := if content = "" then 0 else countNl content + 1
    let detected := detect_code_type record
    let type_str := if detected.isEmpty then "-" else typeStrOf detected
    let quality_score := calculate_basic_quality content
    let pct := quality_score * 100 / MAX_QUALITY_SCORE
    let e : Entry :=
      { p.1 with
        loc := LocVal.num loc
        type_str := type_str
        detected_types := some detected
        quality_str := starStr pct
        quality_score := some quality_score
        tier := 2 }
    (e, cacheSet p.2 idx e)

/-- `calculate_t3_metrics`: ensure Tier ≥ 2, then promote to Tier 3 (full
quality checklist and rescored quality) unless already ≥ 3. -/
def calculate_t3_metrics (records : List Record) (idx : Nat) (c : Cache) :
    Entry × Cache :=
  let p := match c idx with
    | some e => (e, c)
    | none => calculate_t1_metrics records idx c
  let q := if p.1.tier < 2 then calculate_t2_metrics records idx p.2 else p
  if 3 ≤ q.1.tier then q
  else
    let record := recordAt records idx
    let content := record.content
    let quality_details := calculate_full_quality content
    let score := (quality_details.filter (·.2)).foldl
      (fun acc kv => acc + qualityWeight kv.1) 0
    let pct := score * 100 / MAX_QUALITY_SCORE
    let e : Entry :=
      { q.1 with
        quality_details := some quality_details
        quality_str := starStr pct
        quality_score := some score
        tier := 3 }
    (e, cacheSet q.2 idx e)

/-! ### Background indexer (`_background_scan_worker`) -/

/-- One loop iteration: promote index `i` to Tier 2 unless already there
(`if cache.get('tier', 0) < 2: self.calculate_t2_metrics(i)`). -/
def scanStep (records : List Record) (c : Cache) (i : Nat) : Cache :=
  if tierAt c i < 2 then (calculate_t2_metrics records i c).2 else c

/-- The worker after completing iterations `0, …, n-1`. -/
def scanUpTo (records : List Record) (c : Cache) (n : Nat) : Cache :=
  (List.range n).foldl (scanStep records) c

/-- How many iterations run: the cancellation flag, when set, is observed at
the top of iteration `k` (`cancelAt = some k`) and the loop breaks there;
otherwise all `len(records)` iterations run. -/
def processedCount (records : List Record) (cancelAt : Option Nat) : Nat :=
  match cancelAt with
  | none => records.length
  | some k => min k records.length

/-- The cache state when `_background_scan_worker` returns. -/
def runScan (records : List Record) (cancelAt : Option Nat) (c : Cache) : Cache :=
  scanUpTo records c (processedCount records cancelAt)

/-- The notifications the worker posts to the foreground:
`update_status(f"Indexing: {i}/{total} …")` every 100 records, and the
unconditional final `update_status(f"Indexing complete: {total} records")`. -/
inductive ScanEvent where
  | progress (processed total : Nat)
  | complete (total : Nat)
deriving DecidableEq

/-- The full event trace of one worker run (cancelled at `cancelAt`, if set). -/
def workerEvents (records : List Record) (cancelAt : Option Nat) : List ScanEvent :=
  ((List.range (processedCount records cancelAt)).filter (· % 100 = 0)).map
    (fun i => ScanEvent.progress i records.length)
  ++ [ScanEvent.complete records.length]

/-! ### Query/filter engine (`do_preview_calculation`) -/

/-- The immutable filter specification the preview evaluates (the dialog's
type checkboxes, size range labels, and minimum-quality label). -/
structure FilterSpec where
  selected_types : List String
  size_enabled : Bool
  min_size : String
  max_size : String
  quality_enabled : Bool
  min_quality : String
deriving DecidableEq

/-- `get_size_bytes`: first matching label in `SIZE_OPTIONS`, else 0. -/
def get_size_bytes (label : String) : Int :=
  (((SIZE_OPTIONS.find? (·.1 == label)).map (·.2)).getD 0)

/-- `get_min_quality_pct`. -/
def get_min_quality_pct (s : String) : Nat :=
  if s = "Any" then 0
  else if strIn "20%" s then 20
  else if strIn "40%" s then 40
  else if strIn "70%" s then 70
  else 0

/-- `min_quality_pct = get_min_quality_pct(...) if quality_enabled.get() else 0`. -/
def minQualityPct (spec : FilterSpec) : Nat :=
  if spec.quality_enabled then get_min_quality_pct spec.min_quality else 0

/-- The size check: when size filtering is enabled, pass iff
`min_bytes ≤ size ≤ max_bytes`. -/
def sizePasses (spec : FilterSpec) (r : Record) : Bool :=
  !spec.size_enabled ||
    (decide (get_size_bytes spec.min_size ≤ recordSize r) &&
     decide (recordSize r ≤ get_size_bytes spec.max_size))

/-- The type check: when the selected label set is non-empty, pass iff the
detected label set intersects it. -/
def typePasses (spec : FilterSpec) (r : Record) : Bool :=
  spec.selected_types.isEmpty ||
    (detect_code_type r).any (fun t => spec.selected_types.contains t)

/-- The quality percentage of a Tier-≥2 cache entry, if one exists
(`cache.get('quality_score', 0)` rescaled), else `none`. -/
def cachedPct (cache : Cache) (i : Nat) : Option Nat :=
  match cache i with
  | some e => if 2 ≤ e.tier then some ((e.quality_score.getD 0) * 100 / MAX_QUALITY_SCORE)
              else none
  | none => none

/-- The percentage the quality check uses: the cached Tier-≥2 score if
present, else the fast score recomputed from the content. -/
def qualityPct (cache : Cache) (i : Nat) (r : Record) : Nat :=
  (cachedPct cache i).getD (calculate_basic_quality r.content * 100 / MAX_QUALITY_SCORE)

/-- The quality check: when quality filtering is enabled with a positive
threshold, pass iff the percentage reaches the threshold. -/
def qualityPasses (spec : FilterSpec) (cache : Cache) (i : Nat) (r : Record) : Bool :=
  !(spec.quality_enabled && decide (0 < minQualityPct spec)) ||
    decide (minQualityPct spec ≤ qualityPct cache i r)

/-- All three checks (the loop's `continue` chain). -/
def passesAll (records : List Record) (cache : Cache) (spec : FilterSpec) (i : Nat) : Bool :=
  sizePasses spec (recordAt records i) && typePasses spec (recordAt records i) &&
    qualityPasses spec cache i (recordAt records i)

/-- The preview's accumulated output: `local_indices`, `type_counts` (a
tally per label) and `quality_dist` (the three star bands). -/
structure PreviewResult where
  local_indices : List Nat
  type_counts : String → Nat
  q3 : Nat
  q2 : Nat
  q1 : Nat

/-- One iteration of the `for i, record in enumerate(self.records)` loop. -/
def previewStep (records : List Record) (cache : Cache) (spec : FilterSpec)
    (st : PreviewResult) (i : Nat) : PreviewResult :=
  let r := recordAt records i
  if !sizePasses spec r then st
  else if !typePasses spec r then st
  else if !qualityPasses spec cache i r then st
  else
    let detected := detect_code_type r
    { local_indices := st.local_indices ++ [i]
      type_counts := detected.foldl (fun f t => Function.update f t (f t + 1)) st.type_counts
      q3 := st.q3 + (match cachedPct cache i with
        | some p => if 70 ≤ p then 1 else 0
        | none => 0)
      q2 := st.q2 + (match cachedPct cache i with
        | some p => if 70 ≤ p then 0 else if 40 ≤ p then 1 else 0
        | none => 0)
      q1 := st.q1 + (match cachedPct cache i with
        | some p => if 70 ≤ p then 0 else if 40 ≤ p then 0 else 1
        | none => 0) }

/-- `do_preview_calculation`: single pass over the store in index order. -/
def do_preview_calculation (records : List Record) (cache : Cache)
    (spec : FilterSpec) : PreviewResult :=
  (List.range records.length).foldl (previewStep records cache spec)
    { local_indices := [], type_counts := fun _ => 0, q3 := 0, q2 := 0, q1 := 0 }

/-- Sum of the type distribution over all labels of the pattern table. -/
def typeSum (f : String → Nat) : Nat := (codeTypeKeys.map f).sum

/-! ### Preview concurrency (`is_calculating` guard and `finish_preview`) -/

/-- The dialog's mutable preview state: `is_calculating[0]` (is an
evaluation in flight, and for which spec) and `result_indices[0]` (the
displayed match set). -/
structure PreviewUI where
  running : Option FilterSpec
  displayed : Option (List Nat)
deriving DecidableEq

inductive UIEvent where
  | request (spec : FilterSpec)
  | complete
deriving DecidableEq

/-- One scheduler step.  A `request` while an evaluation is in flight is
dropped by the `is_calculating` guard (`if is_calculating[0]: return`);
`complete` runs `finish_preview`, which unconditionally overwrites
`result_indices[0]` with the finishing evaluation's matches. -/
def uiStep (records : List Record) (cache : Cache) (st : PreviewUI) :
    UIEvent → PreviewUI
  | UIEvent.request s => if st.running.isSome then st else { st with running := some s }
  | UIEvent.complete =>
    match st.running with
    | some s =>
      { running := none
        displayed := some (do_preview_calculation records cache s).local_indices }
    | none => st

def uiRun (records : List Record) (cache : Cache) (evs : List UIEvent) : PreviewUI :=
  evs.foldl (uiStep records cache) { running := none, displayed := none }

/-! ### Sort view (`sort_tree`, column `name`) -/

/-- `get_sort_key` for column `'name'`:
`record_cache.get(idx, {}).get('full_name', '').lower()`. -/
def nameKey (c : Cache) (i : Nat) : String :=
  pyLower (((c i).map Entry.full_name).getD "")

/-- Python's `<` on strings: lexicographic comparison by code point. -/
def lexLt : List Char → List Char → Bool
  | [], [] => false
  | [], _ :: _ => true
  | _ :: _, [] => false
  | a :: as, b :: bs => if a < b then true else if b < a then false else lexLt as bs

/-- Python's `<=` on strings (`a <= b ⇔ ¬ b < a` for this total order). -/
def pyStrLe (a b : String) : Bool := !lexLt b.data a.data

/-- `self.filtered_indices.sort(key=get_sort_key, reverse=...)` for the
`name` column.  Python's `list.sort` is stable, and with `reverse=True` ties
keep their original order; a stable sort is modelled by insertion sort with
the (flipped, for descending) total preorder on keys. -/
def sortByName (c : Cache) (rev : Bool) (l : List Nat) : List Nat :=
  if rev then List.insertionSort (fun a b => pyStrLe (nameKey c b) (nameKey c a) = true) l
  else List.insertionSort (fun a b => pyStrLe (nameKey c a) (nameKey c b) = true) l

/-! ## Theorems -/

/-! ### Helper lemmas -/

/-- Two strings with distinct equal-length leading chunks differ, whatever
follows. -/
theorem append_ne_append_left {a b : String} (s t : String)
    (hlen : a.data.length = b.data.length) (h : a ≠ b) : a ++ s ≠ b ++ t := by
  intro he
  apply h
  rw [String.ext_iff] at he ⊢
  rw [String.data_append, String.data_append] at he
  exact List.append_inj_left he hlen

theorem starStr_ne_three (pct p : Nat) (h : pct < 70) :
    starStr pct ≠ "★★★ " ++ Nat.repr p ++ "%" := by
  unfold starStr
  rw [if_neg (by omega)]
  have key : ∀ (a : String), a.data.length = 4 → a ≠ "★★★ " →
      a ++ Nat.repr pct ++ "%" ≠ "★★★ " ++ Nat.repr p ++ "%" := by
    intro a hlen hne he
    rw [String.ext_iff] at he
    simp only [String.data_append] at he
    simp only [List.append_assoc] at he
    have hpre := List.append_inj_left he (by rw [hlen]; decide)
    exact hne (String.ext hpre)
  split
  · exact key _ (by decide) (by decide)
  · exact key _ (by decide) (by decide)

/-! ### C10: the '50 KB' size option is bound to 10240 bytes -/

/-- C10: in `SIZE_OPTIONS` the option labeled `'50 KB'` is bound to
`10 * 1024 = 10240` bytes (not `51200`), so a size bound set to `'50 KB'`
(here as the max, with min `'1 KB'`) compares every record's size against
`10240`. -/
theorem size_option_50kb_is_10240 :
    get_size_bytes "50 KB" = 10 * 1024 ∧
    get_size_bytes "50 KB" ≠ 51200 ∧
    ∀ r : Record,
      sizePasses ⟨[], true, "1 KB", "50 KB", false, "Any"⟩ r =
        (decide ((1024 : Int) ≤ recordSize r) && decide (recordSize r ≤ (10240 : Int))) := by
  refine ⟨by decide, by decide, fun r => ?_⟩
  have h1 : get_size_bytes "1 KB" = 1024 := by decide
  have h2 : get_size_bytes "50 KB" = 10240 := by decide
  simp [sizePasses, h1, h2]

/-! ### C9: the Tier-2 fast score is capped at 32/62, below the 3-star band -/

/-- C9: `calculate_basic_quality` can award at most
10+8+5+5+4 = 32 of the 62 possible points, so the Tier-2 percentage
`int(score/62*100)` is at most 51 and a freshly computed Tier-2 entry's
quality string is never the 3-star form (3 stars need ≥ 70%, reachable only
by Tier-3 scoring). -/
theorem t2_quality_below_three_stars (content : String) (records : List Record)
    (idx : Nat) (c : Cache) (h : tierAt c idx < 2) :
    calculate_basic_quality content ≤ 32 ∧
    calculate_basic_quality content * 100 / MAX_QUALITY_SCORE ≤ 51 ∧
    ∀ p : Nat,
      (calculate_t2_metrics records idx c).1.quality_str ≠ "★★★ " ++ Nat.repr p ++ "%" := by
  have hbound : ∀ s : String, calculate_basic_quality s ≤ 32 := by
    intro s
    unfold calculate_basic_quality
    split_ifs <;> decide
  have hpct : ∀ s : String, calculate_basic_quality s * 100 / MAX_QUALITY_SCORE ≤ 51 := by
    intro s
    have hm : MAX_QUALITY_SCORE = 62 := by decide
    rw [hm]
    calc calculate_basic_quality s * 100 / 62
        ≤ 32 * 100 / 62 := Nat.div_le_div_right (Nat.mul_le_mul_right 100 (hbound s))
      _ ≤ 51 := by decide
  refine ⟨hbound content, hpct content, fun p => ?_⟩
  unfold calculate_t2_metrics
  have htier : ¬ 2 ≤ (match c idx with
      | some e => (e, c)
      | none => calculate_t1_metrics records idx c).1.tier := by
    match hidx : c idx with
    | some e =>
      simp only [hidx]
      unfold tierAt at h
      rw [hidx] at h
      simpa using h
    | none =>
      simp only [hidx]
      rw [show (calculate_t1_metrics records idx c).1.tier = 1 from rfl]
      omega
  rw [if_neg htier]
  simp only
  exact starStr_ne_three _ p (Nat.lt_of_le_of_lt (hpct _) (by omega))

/-! ### Cache helper lemmas -/

theorem tierAt_some {c : Cache} {i : Nat} {e : Entry} (h : c i = some e) :
    tierAt c i = e.tier := by
  unfold tierAt
  rw [h]
  rfl

theorem tierAt_none {c : Cache} {i : Nat} (h : c i = none) : tierAt c i = 0 := by
  unfold tierAt
  rw [h]
  rfl

theorem cacheSet_self (c : Cache) (i : Nat) (e : Entry) : cacheSet c i e i = some e := by
  unfold cacheSet
  simp

theorem cacheSet_other (c : Cache) (e : Entry) {i j : Nat} (h : j ≠ i) :
    cacheSet c i e j = c j := by
  unfold cacheSet
  simp [h]

theorem t1_entry_tier (records : List Record) (idx : Nat) (c : Cache) :
    (calculate_t1_metrics records idx c).1.tier = 1 := rfl

theorem t1_cache_eq (records : List Record) (idx : Nat) (c : Cache) :
    (calculate_t1_metrics records idx c).2 =
      cacheSet c idx (calculate_t1_metrics records idx c).1 := rfl

/-- The entry returned by `calculate_t2_metrics` has tier `max 2 (old tier)`:
an already-≥2 entry is returned as-is, anything lower is promoted to 2. -/
theorem t2_entry_tier (records : List Record) (idx : Nat) (c : Cache) :
    (calculate_t2_metrics records idx c).1.tier = max 2 (tierAt c idx) := by
  unfold calculate_t2_metrics
  match hidx : c idx with
  | some e =>
    simp only [hidx]
    rw [tierAt_some hidx]
    by_cases h2 : 2 ≤ e.tier
    · rw [if_pos h2]
      exact (Nat.max_eq_right h2).symm
    · rw [if_neg h2]
      show 2 = max 2 e.tier
      rw [Nat.max_eq_left (by omega)]
  | none =>
    simp only [hidx]
    rw [tierAt_none hidx]
    rw [if_neg (by rw [t1_entry_tier]; omega)]
    rfl

/-- The first phase of `calculate_t3_metrics` (ensure presence, promote to
Tier 2 if below) is exactly `calculate_t2_metrics`. -/
theorem t3_first_phase (records : List Record) (idx : Nat) (c : Cache) :
    (let p := match c idx with
      | some e => (e, c)
      | none => calculate_t1_metrics records idx c
     if p.1.tier < 2 then calculate_t2_metrics records idx p.2 else p) =
    calculate_t2_metrics records idx c := by
  match hidx : c idx with
  | some e =>
    simp only [hidx]
    by_cases h2 : e.tier < 2
    · rw [if_pos h2]
    · rw [if_neg h2]
      unfold calculate_t2_metrics
      simp only [hidx]
      rw [if_pos (by omega)]
  | none =>
    simp only [hidx]
    rw [if_pos (by rw [t1_entry_tier]; omega)]
    conv_rhs => unfold calculate_t2_metrics
    conv_lhs => unfold calculate_t2_metrics
    simp only [hidx]
    rw [t1_cache_eq, cacheSet_self]
    dsimp only
    have hne : ¬ 2 ≤ (calculate_t1_metrics records idx c).1.tier := by
      rw [t1_entry_tier]
      omega
    rw [if_neg hne, if_neg hne]

/-- Zeta-reduced restatement of `t3_first_phase`, in the exact shape produced
by unfolding `calculate_t3_metrics`. -/
theorem t3_first_phase_zeta (records : List Record) (idx : Nat) (c : Cache) :
    (if (match c idx with
         | some e => (e, c)
         | none => calculate_t1_metrics records idx c).1.tier < 2
     then calculate_t2_metrics records idx
            (match c idx with
             | some e => (e, c)
             | none => calculate_t1_metrics records idx c).2
     else (match c idx with
           | some e => (e, c)
           | none => calculate_t1_metrics records idx c)) =
    calculate_t2_metrics records idx c := t3_first_phase records idx c

/-! ### C7: empty content scores zero and lands in the 1-star band -/

/-- C7: for empty content the fast scorer returns 0 and the full scorer
returns an empty checklist (total functions — no error channel), and the
Tier-3 entry computed for such a record has score 0, empty checklist, and the
1-star 0% quality string. -/
theorem empty_content_zero_quality (records : List Record) (idx : Nat) (c : Cache)
    (hrec : (recordAt records idx).content = "") (htier : tierAt c idx < 3) :
    calculate_basic_quality "" = 0 ∧
    calculate_full_quality "" = [] ∧
    (calculate_t3_metrics records idx c).1.quality_details = some [] ∧
    (calculate_t3_metrics records idx c).1.quality_score = some 0 ∧
    (calculate_t3_metrics records idx c).1.quality_str = "★☆☆ 0%" ∧
    (calculate_t3_metrics records idx c).1.tier = 3 := by
  have hq : ¬ 3 ≤ (calculate_t2_metrics records idx c).1.tier := by
    rw [t2_entry_tier]
    omega
  have heq : calculate_t3_metrics records idx c =
      (let q := calculate_t2_metrics records idx c
       let e : Entry :=
         { q.1 with
           quality_details := some []
           quality_str := "★☆☆ 0%"
           quality_score := some 0
           tier := 3 }
       (e, cacheSet q.2 idx e)) := by
    unfold calculate_t3_metrics
    dsimp only
    rw [t3_first_phase_zeta]
    rw [if_neg hq]
    rw [hrec]
    rfl
  exact ⟨by decide, by decide, by rw [heq], by rw [heq], by rw [heq], by rw [heq]⟩

/-- C7 witness: a concrete one-record store with empty content, empty cache. -/
theorem empty_content_zero_quality_witness :
    calculate_basic_quality "" = 0 ∧
    calculate_full_quality "" = [] ∧
    (calculate_t3_metrics [⟨"p", some 0, ""⟩] 0 (fun _ => none)).1.quality_details = some [] ∧
    (calculate_t3_metrics [⟨"p", some 0, ""⟩] 0 (fun _ => none)).1.quality_score = some 0 ∧
    (calculate_t3_metrics [⟨"p", some 0, ""⟩] 0 (fun _ => none)).1.quality_str = "★☆☆ 0%" ∧
    (calculate_t3_metrics [⟨"p", some 0, ""⟩] 0 (fun _ => none)).1.tier = 3 :=
  empty_content_zero_quality [⟨"p", some 0, ""⟩] 0 (fun _ => none) rfl (by decide)

/-- C9 witness: a concrete fresh Tier-2 computation is not 3-star. -/
theorem t2_quality_below_three_stars_witness :
    (calculate_t2_metrics [⟨"p", some 100, "x"⟩] 0 (fun _ => none)).1.quality_str ≠
      "★★★ " ++ Nat.repr 70 ++ "%" :=
  (t2_quality_below_three_stars "x" [⟨"p", some 100, "x"⟩] 0 (fun _ => none)
    (by decide)).2.2 70

/-! ### C5: the worker's terminal notification (corrected) -/

/-- C5 counterexample: a two-record store cancelled after one iteration still
emits the `Indexing complete: {total} records` terminal notification (with the
full total), and the trace has no distinct cancelled event — contradicting the
claim that a completed notification is emitted only after processing the whole
store. -/
theorem worker_completed_despite_cancel :
    processedCount [⟨"a", some 1, ""⟩, ⟨"b", some 2, ""⟩] (some 1) = 1 ∧
    processedCount [⟨"a", some 1, ""⟩, ⟨"b", some 2, ""⟩] (some 1) <
      ([⟨"a", some 1, ""⟩, ⟨"b", some 2, ""⟩] : List Record).length ∧
    ScanEvent.complete 2 ∈ workerEvents [⟨"a", some 1, ""⟩, ⟨"b", some 2, ""⟩] (some 1) ∧
    workerEvents [⟨"a", some 1, ""⟩, ⟨"b", some 2, ""⟩] (some 1) =
      [ScanEvent.progress 0 2, ScanEvent.complete 2] := by
  decide

/-- C5 amended: whatever the cancellation point, the worker's final
notification is always the completed one carrying the total record count;
there is no distinct cancelled terminal event. -/
theorem worker_final_event_always_complete (records : List Record)
    (cancelAt : Option Nat) :
    (workerEvents records cancelAt).getLast? =
      some (ScanEvent.complete records.length) := by
  unfold workerEvents
  exact List.getLast?_concat _

/-! ### C8: concurrent filter evaluations (corrected) -/

/-- C8 counterexample: with the `is_calculating` guard, a second evaluation
requested while the first is in flight is dropped, so after the first
completes the displayed match set is the *first* evaluation's result — not
the later-started evaluation's result as the claim requires (here the two
specs genuinely disagree: the second's match set is empty). -/
theorem preview_race_shows_first_result :
    (uiRun [⟨"x", some 2048, ""⟩] (fun _ => none)
      [UIEvent.request ⟨[], false, "1 KB", "100 MB", false, "Any"⟩,
       UIEvent.request ⟨[], true, "1 MB", "100 MB", false, "Any"⟩,
       UIEvent.complete]).displayed = some [0] ∧
    (do_preview_calculation [⟨"x", some 2048, ""⟩] (fun _ => none)
      ⟨[], true, "1 MB", "100 MB", false, "Any"⟩).local_indices = [] ∧
    (some [0] : Option (List Nat)) ≠ some [] := by
  decide

/-- C8 amended: a filter-evaluation request arriving while another is in
flight is dropped by the `is_calculating` guard (not queued, and no
generation check exists), so in the claim's schedule the final displayed
match set is the first evaluation's result. -/
theorem preview_race_first_wins (records : List Record) (cache : Cache)
    (s1 s2 : FilterSpec) :
    uiRun records cache [UIEvent.request s1, UIEvent.request s2, UIEvent.complete] =
      ⟨none, some (do_preview_calculation records cache s1).local_indices⟩ := rfl

/-! ### C6: sorting by name (corrected) -/

/-- A permutation-unique-sorted-list lemma with antisymmetry required only on
the list's members (the name-key order on indices is not globally
antisymmetric: distinct indices can share a key). -/
theorem eq_of_perm_of_sorted_of_antisymm {α : Type} {r : α → α → Prop} :
    ∀ {l₁ l₂ : List α}, l₁.Perm l₂ → l₁.Pairwise r → l₂.Pairwise r →
      (∀ a ∈ l₁, ∀ b ∈ l₁, r a b → r b a → a = b) → l₁ = l₂ := by
  intro l₁
  induction l₁ with
  | nil =>
    intro l₂ hp _ _ _
    exact hp.nil_eq
  | cons a t ih =>
    intro l₂ hp hs₁ hs₂ hanti
    cases l₂ with
    | nil => simpa using hp.eq_nil
    | cons b t₂ =>
      by_cases hab : a = b
      · subst hab
        have ht : t.Perm t₂ := hp.cons_inv
        congr 1
        exact ih ht (List.pairwise_cons.mp hs₁).2 (List.pairwise_cons.mp hs₂).2
          (fun x hx y hy hxy hyx =>
            hanti x (List.mem_cons_of_mem _ hx) y (List.mem_cons_of_mem _ hy) hxy hyx)
      · exfalso
        have hbl : b ∈ a :: t := hp.mem_iff.mpr (List.mem_cons_self b t₂)
        have hal : a ∈ b :: t₂ := hp.mem_iff.mp (List.mem_cons_self a t)
        have hb_t : b ∈ t := by
          cases List.mem_cons.mp hbl with
          | inl h => exact absurd h.symm hab
          | inr h => exact h
        have ha_t₂ : a ∈ t₂ := by
          cases List.mem_cons.mp hal with
          | inl h => exact absurd h hab
          | inr h => exact h
        have hrab : r a b := (List.pairwise_cons.mp hs₁).1 b hb_t
        have hrba : r b a := (List.pairwise_cons.mp hs₂).1 a ha_t₂
        exact hab (hanti a (List.mem_cons_self a t) b hbl hrab hrba)

theorem lexLt_asymm : ∀ a b, lexLt a b = true → lexLt b a = true → False := by
  intro a
  induction a with
  | nil => intro b h1 h2; cases b <;> simp [lexLt] at h1 h2
  | cons x xs ih =>
    intro b h1 h2
    cases b with
    | nil => simp [lexLt] at h1
    | cons y ys =>
      simp only [lexLt] at h1 h2
      by_cases hxy : x < y
      · rw [if_pos hxy] at h1
        rw [if_neg (lt_asymm hxy), if_pos hxy] at h2
        exact absurd h2 (by simp)
      · rw [if_neg hxy] at h1
        by_cases hyx : y < x
        · rw [if_pos hyx] at h1
          exact absurd h1 (by simp)
        · rw [if_neg hyx] at h1
          rw [if_neg hyx, if_neg hxy] at h2
          exact ih ys h1 h2

theorem lexLt_trichotomy : ∀ a b, lexLt a b = true ∨ a = b ∨ lexLt b a = true := by
  intro a
  induction a with
  | nil => intro b; cases b <;> simp [lexLt]
  | cons x xs ih =>
    intro b
    cases b with
    | nil => simp [lexLt]
    | cons y ys =>
      rcases lt_trichotomy x y with hxy | hxy | hxy
      · left; simp [lexLt, hxy]
      · subst hxy
        rcases ih ys with h | h | h
        · left; simp [lexLt, lt_irrefl, h]
        · right; left; rw [h]
        · right; right; simp [lexLt, lt_irrefl, h]
      · right; right; simp [lexLt, hxy, lt_asymm hxy]

theorem lexLt_trans : ∀ a b c, lexLt a b = true → lexLt b c = true → lexLt a c = true := by
  intro a
  induction a with
  | nil =>
    intro b c h1 h2
    cases b with
    | nil => simp [lexLt] at h1
    | cons y ys => cases c with
      | nil => simp [lexLt] at h2
      | cons z zs => simp [lexLt]
  | cons x xs ih =>
    intro b c h1 h2
    cases b with
    | nil => simp [lexLt] at h1
    | cons y ys =>
      cases c with
      | nil => simp [lexLt] at h2
      | cons z zs =>
        simp only [lexLt] at h1 h2 ⊢
        by_cases hxy : x < y
        · by_cases hyz : y < z
          · rw [if_pos (lt_trans hxy hyz)]
          · rw [if_neg hyz] at h2
            by_cases hzy : z < y
            · rw [if_pos hzy] at h2; exact absurd h2 (by simp)
            · have hyzeq : y = z := le_antisymm (not_lt.mp hzy) (not_lt.mp hyz)
              subst hyzeq
              rw [if_pos hxy]
        · rw [if_neg hxy] at h1
          by_cases hyx : y < x
          · rw [if_pos hyx] at h1; exact absurd h1 (by simp)
          · have hxyeq : x = y := le_antisymm (not_lt.mp hyx) (not_lt.mp hxy)
            subst hxyeq
            rw [if_neg hxy] at h1
            by_cases hyz : x < z
            · rw [if_pos hyz]
            · rw [if_neg hyz] at h2 ⊢
              by_cases hzy : z < x
              · rw [if_pos hzy] at h2; exact absurd h2 (by simp)
              · rw [if_neg hzy] at h2 ⊢
                exact ih ys zs h1 h2

theorem pyStrLe_total (a b : String) : pyStrLe a b = true ∨ pyStrLe b a = true := by
  unfold pyStrLe
  by_cases h1 : lexLt b.data a.data = true
  · right
    simp only [Bool.not_eq_true']
    by_cases h2 : lexLt a.data b.data = true
    · exact absurd (lexLt_asymm _ _ h1 h2) (by simp)
    · simpa using h2
  · left
    rw [Bool.not_eq_true] at h1
    simp only [Bool.not_eq_true']
    exact h1

theorem pyStrLe_trans {a b c : String} (h1 : pyStrLe a b = true)
    (h2 : pyStrLe b c = true) : pyStrLe a c = true := by
  unfold pyStrLe at *
  simp only [Bool.not_eq_true'] at h1 h2 ⊢
  by_cases hca : lexLt c.data a.data = true
  · rcases lexLt_trichotomy a.data b.data with h | h | h
    · have := lexLt_trans _ _ _ hca h
      rw [this] at h2; exact absurd h2 (by simp)
    · rw [← h] at h2; rw [h2] at hca; exact absurd hca (by simp)
    · rw [h] at h1; exact absurd h1 (by simp)
  · simpa using hca

theorem pyStrLe_antisymm {a b : String} (h1 : pyStrLe a b = true)
    (h2 : pyStrLe b a = true) : a = b := by
  unfold pyStrLe at h1 h2
  simp only [Bool.not_eq_true'] at h1 h2
  rcases lexLt_trichotomy a.data b.data with h | h | h
  · rw [h] at h2; exact absurd h2 (by simp)
  · exact String.ext h
  · rw [h] at h1; exact absurd h1 (by simp)

/-- C6 counterexample: with an empty cache both indices have name key `""`;
ascending sort of `[0, 1]` gives `[0, 1]`, and toggling to descending gives
`[0, 1]` again (Python's sort is stable, ties keep their order) — not the
exact reverse `[1, 0]` the claim requires. -/
theorem sort_name_toggle_not_reverse :
    sortByName (fun _ => none) false [0, 1] = [0, 1] ∧
    sortByName (fun _ => none) true (sortByName (fun _ => none) false [0, 1]) = [0, 1] ∧
    (sortByName (fun _ => none) false [0, 1]).reverse = [1, 0] ∧
    ([0, 1] : List Nat) ≠ [1, 0] := by
  decide

/-- C6 amended: sorting by name twice with the same direction yields the same
order (unconditionally); toggling the direction yields exactly the reverse
provided the name keys of the listed indices are pairwise distinct (with
duplicate keys the stable sort preserves tie order instead of reversing it). -/
theorem sort_name_idempotent_and_toggle (c : Cache) (l : List Nat) (rev : Bool) :
    sortByName c rev (sortByName c rev l) = sortByName c rev l ∧
    ((∀ a ∈ l, ∀ b ∈ l, nameKey c a = nameKey c b → a = b) →
      sortByName c true (sortByName c false l) = (sortByName c false l).reverse) := by
  haveI iTa : IsTotal ℕ (fun a b => pyStrLe (nameKey c a) (nameKey c b) = true) :=
    ⟨fun a b => pyStrLe_total _ _⟩
  haveI iRa : IsTrans ℕ (fun a b => pyStrLe (nameKey c a) (nameKey c b) = true) :=
    ⟨fun _ _ _ h1 h2 => pyStrLe_trans h1 h2⟩
  haveI iTd : IsTotal ℕ (fun a b => pyStrLe (nameKey c b) (nameKey c a) = true) :=
    ⟨fun a b => Or.symm (pyStrLe_total _ _)⟩
  haveI iRd : IsTrans ℕ (fun a b => pyStrLe (nameKey c b) (nameKey c a) = true) :=
    ⟨fun _ _ _ h1 h2 => pyStrLe_trans h2 h1⟩
  constructor
  · cases rev with
    | false =>
      show List.insertionSort _ (List.insertionSort _ l) = List.insertionSort _ l
      exact List.Sorted.insertionSort_eq (List.sorted_insertionSort _ l)
    | true =>
      show List.insertionSort _ (List.insertionSort _ l) = List.insertionSort _ l
      exact List.Sorted.insertionSort_eq (List.sorted_insertionSort _ l)
  · intro hinj
    show List.insertionSort _ (List.insertionSort _ l) = (List.insertionSort _ l).reverse
    apply eq_of_perm_of_sorted_of_antisymm
      (r := fun a b => pyStrLe (nameKey c b) (nameKey c a) = true)
    · exact (List.perm_insertionSort _ _).trans (List.reverse_perm _).symm
    · exact List.sorted_insertionSort _ _
    · exact List.pairwise_reverse.mpr (List.sorted_insertionSort _ l)
    · intro x hx y hy hxy hyx
      have hx' : x ∈ l := (List.mem_insertionSort _).mp ((List.mem_insertionSort _).mp hx)
      have hy' : y ∈ l := (List.mem_insertionSort _).mp ((List.mem_insertionSort _).mp hy)
      exact hinj x hx' y hy' (pyStrLe_antisymm hyx hxy)

/-- C6 witness: with distinct name keys the toggle is the exact reverse. -/
theorem sort_name_toggle_witness :
    sortByName (fun i => if i = 0 then some ⟨1, "a", "a", 0, SizeStr.b 0, LocVal.strDots, "...", "...", none, none, none⟩
        else some ⟨1, "b", "b", 0, SizeStr.b 0, LocVal.strDots, "...", "...", none, none, none⟩) true
      (sortByName (fun i => if i = 0 then some ⟨1, "a", "a", 0, SizeStr.b 0, LocVal.strDots, "...", "...", none, none, none⟩
        else some ⟨1, "b", "b", 0, SizeStr.b 0, LocVal.strDots, "...", "...", none, none, none⟩) false [0, 1]) =
    (sortByName (fun i => if i = 0 then some ⟨1, "a", "a", 0, SizeStr.b 0, LocVal.strDots, "...", "...", none, none, none⟩
        else some ⟨1, "b", "b", 0, SizeStr.b 0, LocVal.strDots, "...", "...", none, none, none⟩) false [0, 1]).reverse :=
  (sort_name_idempotent_and_toggle _ [0, 1] false).2 (by decide)

/-! ### C2: promotion idempotence and tier monotonicity -/

theorem tierAt_cacheSet_self (c : Cache) (i : Nat) (e : Entry) :
    tierAt (cacheSet c i e) i = e.tier := tierAt_some (cacheSet_self c i e)

theorem tierAt_cacheSet_other (c : Cache) (e : Entry) {i j : Nat} (h : j ≠ i) :
    tierAt (cacheSet c i e) j = tierAt c j := by
  unfold tierAt
  rw [cacheSet_other c e h]

theorem get_tier_mono (records : List Record) (idx : Nat) (c : Cache) (j : Nat) :
    tierAt c j ≤ tierAt (get_cached_metrics records idx c).2 j := by
  unfold get_cached_metrics
  match hidx : c idx with
  | some e => simp only [hidx]; exact le_refl _
  | none =>
    simp only [hidx]
    rw [t1_cache_eq]
    by_cases hj : j = idx
    · subst hj
      rw [tierAt_cacheSet_self, tierAt_none hidx, t1_entry_tier]
      omega
    · rw [tierAt_cacheSet_other _ _ hj]

theorem t2_tier_mono (records : List Record) (idx : Nat) (c : Cache) (j : Nat) :
    tierAt c j ≤ tierAt (calculate_t2_metrics records idx c).2 j := by
  unfold calculate_t2_metrics
  match hidx : c idx with
  | some e =>
    simp only [hidx]
    by_cases h2 : 2 ≤ e.tier
    · rw [if_pos h2]
    · rw [if_neg h2]
      by_cases hj : j = idx
      · subst hj
        rw [tierAt_cacheSet_self, tierAt_some hidx]
        show e.tier ≤ 2
        omega
      · rw [tierAt_cacheSet_other _ _ hj]
  | none =>
    simp only [hidx]
    rw [if_neg (by rw [t1_entry_tier]; omega)]
    by_cases hj : j = idx
    · subst hj
      rw [tierAt_cacheSet_self, tierAt_none hidx]
      exact Nat.zero_le _
    · rw [tierAt_cacheSet_other _ _ hj, t1_cache_eq, tierAt_cacheSet_other _ _ hj]

theorem t3_tier_mono (records : List Record) (idx : Nat) (c : Cache) (j : Nat) :
    tierAt c j ≤ tierAt (calculate_t3_metrics records idx c).2 j := by
  unfold calculate_t3_metrics
  dsimp only
  rw [t3_first_phase_zeta]
  by_cases h3 : 3 ≤ (calculate_t2_metrics records idx c).1.tier
  · rw [if_pos h3]
    exact t2_tier_mono records idx c j
  · rw [if_neg h3]
    by_cases hj : j = idx
    · subst hj
      rw [tierAt_cacheSet_self]
      show tierAt c j ≤ 3
      have := t2_entry_tier records j c
      omega
    · rw [tierAt_cacheSet_other _ _ hj]
      exact t2_tier_mono records idx c j

/-- C2: requesting a tier already satisfied returns the stored entry
unchanged with an unchanged cache (no recomputation, no mutation), for all
three tiers (`get_cached_metrics` is the Tier-1 request,
`calculate_t2_metrics`/`calculate_t3_metrics` the Tier-2/3 requests); and no
cache operation ever decreases any entry's tier. -/
theorem cache_promotion_idempotent_monotone (records : List Record) (idx : Nat)
    (c : Cache) (e : Entry) (h : c idx = some e) :
    get_cached_metrics records idx c = (e, c) ∧
    (2 ≤ e.tier → calculate_t2_metrics records idx c = (e, c)) ∧
    (3 ≤ e.tier → calculate_t3_metrics records idx c = (e, c)) ∧
    (∀ (c' : Cache) (j : Nat),
      tierAt c' j ≤ tierAt (get_cached_metrics records idx c').2 j ∧
      tierAt c' j ≤ tierAt (calculate_t2_metrics records idx c').2 j ∧
      tierAt c' j ≤ tierAt (calculate_t3_metrics records idx c').2 j) := by
  refine ⟨?_, ?_, ?_, fun c' j =>
    ⟨get_tier_mono records idx c' j, t2_tier_mono records idx c' j,
     t3_tier_mono records idx c' j⟩⟩
  · unfold get_cached_metrics
    simp only [h]
  · intro h2
    unfold calculate_t2_metrics
    simp only [h]
    rw [if_pos h2]
  · intro h3
    unfold calculate_t3_metrics
    simp only [h]
    rw [if_neg (show ¬ e.tier < 2 by omega)]
    rw [if_pos h3]

/-- C2 witness: a concrete Tier-3 entry is returned unchanged by a Tier-3
request. -/
theorem cache_promotion_idempotent_monotone_witness :
    calculate_t3_metrics [⟨"p", some 1, ""⟩] 0
        (fun _ => some ⟨3, "a", "a", 1, SizeStr.b 1, LocVal.num 0, "-", "★☆☆ 0%", some [], some 0, some []⟩) =
      (⟨3, "a", "a", 1, SizeStr.b 1, LocVal.num 0, "-", "★☆☆ 0%", some [], some 0, some []⟩,
       fun _ => some ⟨3, "a", "a", 1, SizeStr.b 1, LocVal.num 0, "-", "★☆☆ 0%", some [], some 0, some []⟩) :=
  (cache_promotion_idempotent_monotone [⟨"p", some 1, ""⟩] 0 _ _ rfl).2.2.1 (by decide)

/-! ### C4: cancellation safety of the background indexer -/

/-- `calculate_t2_metrics` touches no cache slot other than `idx`. -/
theorem t2_cache_other (records : List Record) (idx : Nat) (c : Cache) {j : Nat}
    (h : j ≠ idx) : (calculate_t2_metrics records idx c).2 j = c j := by
  unfold calculate_t2_metrics
  match hidx : c idx with
  | some e =>
    simp only [hidx]
    by_cases h2 : 2 ≤ e.tier
    · rw [if_pos h2]
    · rw [if_neg h2]
      exact cacheSet_other _ _ h
  | none =>
    simp only [hidx]
    rw [if_neg (by rw [t1_entry_tier]; omega)]
    dsimp only
    rw [cacheSet_other _ _ h, t1_cache_eq, cacheSet_other _ _ h]

/-- The entry `calculate_t2_metrics` returns is what it leaves stored at `idx`. -/
theorem t2_cache_self (records : List Record) (idx : Nat) (c : Cache) :
    (calculate_t2_metrics records idx c).2 idx =
      some (calculate_t2_metrics records idx c).1 := by
  unfold calculate_t2_metrics
  match hidx : c idx with
  | some e =>
    simp only [hidx]
    by_cases h2 : 2 ≤ e.tier
    · rw [if_pos h2]
      exact hidx
    · rw [if_neg h2]
      exact cacheSet_self _ _ _
  | none =>
    simp only [hidx]
    rw [if_neg (by rw [t1_entry_tier]; omega)]
    exact cacheSet_self _ _ _

theorem scanStep_other (records : List Record) (c : Cache) {i j : Nat} (h : j ≠ i) :
    scanStep records c i j = c j := by
  unfold scanStep
  split
  · exact t2_cache_other records i c h
  · rfl

theorem scanStep_skip (records : List Record) (c : Cache) (i : Nat)
    (h : 2 ≤ tierAt c i) : scanStep records c i = c := by
  unfold scanStep
  rw [if_neg (by omega)]

theorem scanStep_promotes (records : List Record) (c : Cache) (i : Nat) :
    2 ≤ tierAt (scanStep records c i) i := by
  unfold scanStep
  by_cases h : tierAt c i < 2
  · rw [if_pos h]
    rw [tierAt_some (t2_cache_self records i c), t2_entry_tier]
    omega
  · rw [if_neg h]
    omega

theorem scanStep_tier_mono (records : List Record) (c : Cache) (i j : Nat) :
    tierAt c j ≤ tierAt (scanStep records c i) j := by
  unfold scanStep
  split
  · exact t2_tier_mono records i c j
  · exact le_refl _

theorem scanUpTo_succ (records : List Record) (c : Cache) (n : Nat) :
    scanUpTo records c (n + 1) = scanStep records (scanUpTo records c n) n := by
  unfold scanUpTo
  rw [List.range_succ, List.foldl_append]
  rfl

/-- Iterations `0 … n-1` do not touch slots at index `≥ n`. -/
theorem scanUpTo_untouched (records : List Record) (c : Cache) :
    ∀ (n : Nat) (j : Nat), n ≤ j → scanUpTo records c n j = c j := by
  intro n
  induction n with
  | zero => intro j _; rfl
  | succ n ih =>
    intro j hj
    rw [scanUpTo_succ, scanStep_other records _ (by omega)]
    exact ih j (by omega)

/-- Already-promoted slots (tier ≥ 2) are never modified by the scan. -/
theorem scanUpTo_keeps_promoted (records : List Record) (c : Cache) :
    ∀ (n : Nat) (j : Nat), 2 ≤ tierAt c j → scanUpTo records c n j = c j := by
  intro n
  induction n with
  | zero => intro j _; rfl
  | succ n ih =>
    intro j hj
    rw [scanUpTo_succ]
    by_cases hn : j = n
    · subst hn
      have hpres : scanUpTo records c j j = c j := ih j hj
      have htier : 2 ≤ tierAt (scanUpTo records c j) j := by
        unfold tierAt
        rw [hpres]
        exact hj
      rw [scanStep_skip records _ j htier]
      exact hpres
    · rw [scanStep_other records _ hn]
      exact ih j hj

/-- Every processed slot ends at tier ≥ 2. -/
theorem scanUpTo_promotes (records : List Record) (c : Cache) :
    ∀ (n : Nat) (j : Nat), j < n → 2 ≤ tierAt (scanUpTo records c n) j := by
  intro n
  induction n with
  | zero => intro j hj; omega
  | succ n ih =>
    intro j hj
    rw [scanUpTo_succ]
    by_cases hn : j = n
    · subst hn
      exact scanStep_promotes records _ j
    · have h1 := ih j (by omega)
      calc 2 ≤ tierAt (scanUpTo records c n) j := h1
        _ ≤ tierAt (scanStep records (scanUpTo records c n) n) j :=
          scanStep_tier_mono records _ n j

/-- C4: if the cancellation flag is observed at iteration `k`, the worker has
run exactly iterations `0 … min k total - 1`: every slot not yet reached is
untouched, every already-promoted (tier ≥ 2) slot is untouched, every
processed slot ends at tier ≥ 2, and a subsequent full (uncancelled) restart
leaves every tier-≥2 slot — in particular all the promoted ones — unchanged
instead of recomputing it. -/
theorem scan_cancellation_safe (records : List Record) (k : Nat) (c : Cache) :
    (∀ j, processedCount records (some k) ≤ j →
      runScan records (some k) c j = c j) ∧
    (∀ j, 2 ≤ tierAt c j → runScan records (some k) c j = c j) ∧
    (∀ j, j < processedCount records (some k) →
      2 ≤ tierAt (runScan records (some k) c) j) ∧
    (∀ j, 2 ≤ tierAt (runScan records (some k) c) j →
      runScan records none (runScan records (some k) c) j =
        runScan records (some k) c j) := by
  refine ⟨fun j hj => scanUpTo_untouched records c _ j hj,
          fun j hj => scanUpTo_keeps_promoted records c _ j hj,
          fun j hj => scanUpTo_promotes records c _ j hj,
          fun j hj => scanUpTo_keeps_promoted records _ _ j hj⟩

/-- C4 witness: one record, cancelled before any iteration — slot 0 untouched. -/
theorem scan_cancellation_safe_witness :
    runScan [⟨"p", some 1, ""⟩] (some 0) (fun _ => none) 0 =
      (fun _ => none : Cache) 0 :=
  (scan_cancellation_safe [⟨"p", some 1, ""⟩] 0 (fun _ => none)).1 0 (by decide)

/-! ### C1 and C3: the filter-preview evaluation -/

theorem cachedPct_isSome_iff (cache : Cache) (i : Nat) :
    (cachedPct cache i).isSome = true ↔ 2 ≤ tierAt cache i := by
  unfold cachedPct tierAt
  match h : cache i with
  | some e =>
    simp only [h]
    by_cases h2 : 2 ≤ e.tier
    · simp [h2]
    · simp [if_neg h2]
      omega
  | none => simp [h]

theorem codeTypeKeys_nodup : codeTypeKeys.Nodup := by decide

theorem detect_mem_keys {r : Record} {t : String} (ht : t ∈ detect_code_type r) :
    t ∈ codeTypeKeys := by
  unfold detect_code_type at ht
  simp only [List.mem_map] at ht
  obtain ⟨pat, hpat, rfl⟩ := ht
  exact List.mem_map_of_mem _ (List.mem_of_mem_filter hpat)

theorem sum_map_update (f : String → Nat) :
    ∀ (ks : List String), ks.Nodup → ∀ t ∈ ks,
      (ks.map (Function.update f t (f t + 1))).sum = (ks.map f).sum + 1 := by
  intro ks
  induction ks with
  | nil => intro _ t ht; simp at ht
  | cons k ks ih =>
    intro hnd t ht
    have hnd' := (List.nodup_cons.mp hnd).2
    have hknotin := (List.nodup_cons.mp hnd).1
    rcases List.mem_cons.mp ht with h | h
    · subst h
      simp only [List.map_cons, List.sum_cons, Function.update_same]
      have hmap : ks.map (Function.update f t (f t + 1)) = ks.map f := by
        apply List.map_congr_left
        intro x hx
        have hxt : x ≠ t := by
          intro he
          rw [he] at hx
          exact hknotin hx
        exact Function.update_noteq hxt _ f
      rw [hmap]
      omega
    · simp only [List.map_cons, List.sum_cons]
      have hkt : k ≠ t := by
        intro he
        rw [← he] at h
        exact hknotin h
      rw [Function.update_noteq hkt _ f, ih hnd' t h]
      omega

theorem typeSum_bumpFold :
    ∀ (ds : List String) (f : String → Nat), (∀ t ∈ ds, t ∈ codeTypeKeys) →
      typeSum (ds.foldl (fun g t => Function.update g t (g t + 1)) f) =
        typeSum f + ds.length := by
  intro ds
  induction ds with
  | nil => intro f _; simp
  | cons d ds ih =>
    intro f hsub
    rw [List.foldl_cons]
    rw [ih _ (fun t ht => hsub t (List.mem_cons_of_mem _ ht))]
    unfold typeSum
    rw [sum_map_update f codeTypeKeys codeTypeKeys_nodup d (hsub d (List.mem_cons_self _ _))]
    simp only [List.length_cons]
    omega

theorem previewStep_parts (records : List Record) (cache : Cache) (spec : FilterSpec)
    (st : PreviewResult) (i : Nat) :
    ((previewStep records cache spec st i).local_indices =
      st.local_indices ++ (if passesAll records cache spec i then [i] else [])) ∧
    (typeSum (previewStep records cache spec st i).type_counts =
      typeSum st.type_counts +
        (if passesAll records cache spec i
         then (detect_code_type (recordAt records i)).length else 0)) ∧
    ((previewStep records cache spec st i).q3 + (previewStep records cache spec st i).q2 +
        (previewStep records cache spec st i).q1 =
      st.q3 + st.q2 + st.q1 +
        (if passesAll records cache spec i && decide (2 ≤ tierAt cache i)
         then 1 else 0)) := by
  unfold previewStep passesAll
  cases hs : sizePasses spec (recordAt records i) with
  | false => simp [hs]
  | true =>
    cases ht : typePasses spec (recordAt records i) with
    | false => simp [hs, ht]
    | true =>
      cases hq : qualityPasses spec cache i (recordAt records i) with
      | false => simp [hs, ht, hq]
      | true =>
        simp only [hs, ht, hq, Bool.not_true, Bool.false_eq_true, if_false, Bool.and_self,
          if_true, Bool.true_and]
        refine ⟨by trivial, ?_, ?_⟩
        · exact typeSum_bumpFold _ _ (fun t htm => detect_mem_keys htm)
        · match hcp : cachedPct cache i with
          | some p =>
            have h2 : 2 ≤ tierAt cache i := by
              rw [← cachedPct_isSome_iff, hcp]
              rfl
            simp only [hcp, h2, decide_True, Bool.and_true, if_true]
            split_ifs <;> omega
          | none =>
            have h2 : ¬ 2 ≤ tierAt cache i := by
              rw [← cachedPct_isSome_iff, hcp]
              simp
            simp [hcp, h2]

theorem previewFold_parts (records : List Record) (cache : Cache) (spec : FilterSpec) :
    ∀ (l : List Nat) (st : PreviewResult),
      ((l.foldl (previewStep records cache spec) st).local_indices =
        st.local_indices ++ l.filter (passesAll records cache spec)) ∧
      (typeSum (l.foldl (previewStep records cache spec) st).type_counts =
        typeSum st.type_counts +
          ((l.filter (passesAll records cache spec)).map
            (fun i => (detect_code_type (recordAt records i)).length)).sum) ∧
      ((l.foldl (previewStep records cache spec) st).q3 +
          (l.foldl (previewStep records cache spec) st).q2 +
          (l.foldl (previewStep records cache spec) st).q1 =
        st.q3 + st.q2 + st.q1 +
          ((l.filter (passesAll records cache spec)).filter
            (fun i => decide (2 ≤ tierAt cache i))).length) := by
  intro l
  induction l with
  | nil => intro st; simp
  | cons i rest ih =>
    intro st
    obtain ⟨h1, h2, h3⟩ := previewStep_parts records cache spec st i
    obtain ⟨ih1, ih2, ih3⟩ := ih (previewStep records cache spec st i)
    refine ⟨?_, ?_, ?_⟩
    · rw [List.foldl_cons, ih1, h1]
      cases hp : passesAll records cache spec i <;>
        simp [hp, List.filter_cons, List.append_assoc]
    · rw [List.foldl_cons, ih2, h2]
      cases hp : passesAll records cache spec i <;>
        simp [hp, List.filter_cons] <;> omega
    · rw [List.foldl_cons, ih3, h3]
      cases hp : passesAll records cache spec i
      · simp [hp, List.filter_cons]
      · cases h2t : decide (2 ≤ tierAt cache i) <;>
          simp [hp, h2t, List.filter_cons] <;> omega

/-- C1: every index in the preview's match list satisfies the size, type and
quality predicates; every in-range index left out fails at least one of them;
and the match list is in ascending store order. -/
theorem preview_filter_correct (records : List Record) (cache : Cache)
    (spec : FilterSpec) :
    (∀ i ∈ (do_preview_calculation records cache spec).local_indices,
      sizePasses spec (recordAt records i) = true ∧
      typePasses spec (recordAt records i) = true ∧
      qualityPasses spec cache i (recordAt records i) = true) ∧
    (∀ i, i < records.length →
      i ∉ (do_preview_calculation records cache spec).local_indices →
      ¬(sizePasses spec (recordAt records i) = true ∧
        typePasses spec (recordAt records i) = true ∧
        qualityPasses spec cache i (recordAt records i) = true)) ∧
    (do_preview_calculation records cache spec).local_indices.Pairwise (· < ·) := by
  have hchar : (do_preview_calculation records cache spec).local_indices =
      (List.range records.length).filter (passesAll records cache spec) := by
    have h := (previewFold_parts records cache spec (List.range records.length)
      { local_indices := [], type_counts := fun _ => 0, q3 := 0, q2 := 0, q1 := 0 }).1
    simpa [do_preview_calculation] using h
  have hpass : ∀ i, passesAll records cache spec i = true ↔
      (sizePasses spec (recordAt records i) = true ∧
       typePasses spec (recordAt records i) = true ∧
       qualityPasses spec cache i (recordAt records i) = true) := by
    intro i
    unfold passesAll
    simp [Bool.and_eq_true, and_assoc]
  refine ⟨?_, ?_, ?_⟩
  · intro i hi
    rw [hchar] at hi
    exact (hpass i).mp (List.mem_filter.mp hi).2
  · intro i hlen hni hsat
    apply hni
    rw [hchar]
    exact List.mem_filter.mpr ⟨List.mem_range.mpr hlen, (hpass i).mpr hsat⟩
  · rw [hchar]
    exact (List.pairwise_lt_range records.length).filter _

/-- C1 witness: on a concrete store/spec, index 0 is matched and satisfies
all three predicates. -/
theorem preview_filter_correct_witness :
    sizePasses ⟨[], false, "1 KB", "100 MB", false, "Any"⟩
        (recordAt [⟨"x", some 2048, ""⟩] 0) = true ∧
    typePasses ⟨[], false, "1 KB", "100 MB", false, "Any"⟩
        (recordAt [⟨"x", some 2048, ""⟩] 0) = true ∧
    qualityPasses ⟨[], false, "1 KB", "100 MB", false, "Any"⟩ (fun _ => none) 0
        (recordAt [⟨"x", some 2048, ""⟩] 0) = true :=
  (preview_filter_correct [⟨"x", some 2048, ""⟩] (fun _ => none)
    ⟨[], false, "1 KB", "100 MB", false, "Any"⟩).1 0 (by decide)

/-- C3 counterexample: one record with no detectable label and an empty
cache, an all-disabled filter: the record matches, but the type-distribution
sum is 0 < 1 and the quality-distribution sum is 0 ≠ 1 — both halves of the
claim fail. -/
theorem preview_distribution_sums_counterexample :
    (do_preview_calculation [⟨"x", some 100, ""⟩] (fun _ => none)
      ⟨[], false, "1 KB", "100 MB", false, "Any"⟩).local_indices.length = 1 ∧
    typeSum (do_preview_calculation [⟨"x", some 100, ""⟩] (fun _ => none)
      ⟨[], false, "1 KB", "100 MB", false, "Any"⟩).type_counts = 0 ∧
    (do_preview_calculation [⟨"x", some 100, ""⟩] (fun _ => none)
        ⟨[], false, "1 KB", "100 MB", false, "Any"⟩).q3 +
      (do_preview_calculation [⟨"x", some 100, ""⟩] (fun _ => none)
        ⟨[], false, "1 KB", "100 MB", false, "Any"⟩).q2 +
      (do_preview_calculation [⟨"x", some 100, ""⟩] (fun _ => none)
        ⟨[], false, "1 KB", "100 MB", false, "Any"⟩).q1 = 0 ∧
    ¬(1 ≤ 0 ∧ (0 : Nat) = 1) := by
  decide

/-- C3 amended: the type-distribution sum equals the total number of
(matched record, detected label) pairs — which can fall below the match
count when matched records have no labels — and the quality-distribution
sum equals the number of matches whose cache entry is at tier ≥ 2 (matches
below Tier 2 are not tallied). -/
theorem preview_distribution_sums (records : List Record) (cache : Cache)
    (spec : FilterSpec) :
    typeSum (do_preview_calculation records cache spec).type_counts =
      ((do_preview_calculation records cache spec).local_indices.map
        (fun i => (detect_code_type (recordAt records i)).length)).sum ∧
    (do_preview_calculation records cache spec).q3 +
        (do_preview_calculation records cache spec).q2 +
        (do_preview_calculation records cache spec).q1 =
      ((do_preview_calculation records cache spec).local_indices.filter
        (fun i => decide (2 ≤ tierAt cache i))).length := by
  obtain ⟨h1, h2, h3⟩ := previewFold_parts records cache spec
    (List.range records.length)
    { local_indices := [], type_counts := fun _ => 0, q3 := 0, q2 := 0, q1 := 0 }
  constructor
  · show typeSum (do_preview_calculation records cache spec).type_counts = _
    rw [show (do_preview_calculation records cache spec).local_indices =
        (List.range records.length).filter (passesAll records cache spec) by
      simpa [do_preview_calculation] using h1]
    simpa [do_preview_calculation, typeSum] using h2
  · rw [show (do_preview_calculation records cache spec).local_indices =
        (List.range records.length).filter (passesAll records cache spec) by
      simpa [do_preview_calculation] using h1]
    simpa [do_preview_calculation] using h3

end RepoView
